import Mathlib

/-!
Verification development for the Enhanced Kemono and Coomer Downloader.

The definitions below are a shallow embedding of the Python sources:
`src/src/failure_handlers.py`, `src/src/post_extractor.py`,
`src/src/download_utils.py`, `src/src/batch_file_downloader.py` and
`src/src/parallel_extract_download.py`.  Files are modelled as lists of
lines, machine integers as `Nat`/`Int`, network and filesystem effects as
explicit environments passed to the embedded functions, and exceptions as
`Except`/`Option` results.
-/

/-- Python default whitespace for `str.strip` (ASCII subset: space, tab,
newline, carriage return, vertical tab, form feed). -/
def pyIsSpace (c : Char) : Bool :=
  c = ' ' || c = '\t' || c = '\n' || c = '\r' || c = '\x0b' || c = '\x0c'

/-- Python `str.strip()` on the character list: drop leading and trailing
whitespace. -/
def pyStripL (l : List Char) : List Char :=
  ((l.dropWhile pyIsSpace).reverse.dropWhile pyIsSpace).reverse

/-- Python `str.strip()`. -/
def pyStrip (s : String) : String := String.mk (pyStripL s.data)

/-- Lexicographic comparison of character lists by code point, the order
Python uses for `str` comparison with `<=`. -/
def lexLe : List Char → List Char → Bool
  | [], _ => true
  | _ :: _, [] => false
  | a :: as, b :: bs => if a = b then lexLe as bs else decide (a < b)

/-- Python string `<=` (lexicographic by code point). -/
def pyStrLe (s t : String) : Bool := lexLe s.data t.data

/-- Python string `<=` as a proposition, used as the sort order for the
failure ledger file. -/
def pyLe (a b : String) : Prop := pyStrLe a b = true

instance : DecidableRel pyLe :=
  fun a b => inferInstanceAs (Decidable (pyStrLe a b = true))

instance : IsTotal String pyLe where
  total := by
    have h : ∀ l m : List Char, lexLe l m = true ∨ lexLe m l = true := by
      intro l
      induction l with
      | nil => intro m; left; rfl
      | cons a as ih =>
        intro m
        cases m with
        | nil => right; rfl
        | cons b bs =>
          by_cases hab : a = b
          · subst hab
            rcases ih bs with h1 | h1
            · left; simpa [lexLe] using h1
            · right; simpa [lexLe] using h1
          · rcases lt_or_gt_of_ne hab with hlt | hlt
            · left; simp [lexLe, hab]; exact hlt
            · right; simp [lexLe, Ne.symm hab]; exact hlt
    intro a b
    exact h a.data b.data

instance : IsTrans String pyLe where
  trans := by
    have h : ∀ l m n : List Char,
        lexLe l m = true → lexLe m n = true → lexLe l n = true := by
      intro l
      induction l with
      | nil => intro m n h1 h2; rfl
      | cons a as ih =>
        intro m n h1 h2
        cases m with
        | nil => simp [lexLe] at h1
        | cons b bs =>
          cases n with
          | nil => simp [lexLe] at h2
          | cons c cs =>
            by_cases hab : a = b
            · subst hab
              by_cases hbc : a = c
              · subst hbc
                simp only [lexLe, if_pos rfl] at h1 h2 ⊢
                exact ih bs cs h1 h2
              · simp only [lexLe, if_neg hbc] at h2 ⊢
                exact h2
            · by_cases hbc : b = c
              · subst hbc
                simp only [lexLe, if_neg hab] at h1 ⊢
                exact h1
              · simp only [lexLe, if_neg hab] at h1
                simp only [lexLe, if_neg hbc] at h2
                have h1p : a < b := of_decide_eq_true h1
                have h2p : b < c := of_decide_eq_true h2
                have hac : a < c := lt_trans h1p h2p
                simp only [lexLe, if_neg hac.ne]
                exact decide_eq_true hac
    intro a b c
    exact h a.data b.data c.data

instance : IsAntisymm String pyLe where
  antisymm := by
    have h : ∀ l m : List Char, lexLe l m = true → lexLe m l = true → l = m := by
      intro l
      induction l with
      | nil =>
        intro m h1 h2
        cases m with
        | nil => rfl
        | cons b bs => simp [lexLe] at h2
      | cons a as ih =>
        intro m h1 h2
        cases m with
        | nil => simp [lexLe] at h1
        | cons b bs =>
          by_cases hab : a = b
          · subst hab
            simp only [lexLe, if_pos rfl] at h1 h2
            rw [ih bs h1 h2]
          · simp only [lexLe, if_neg hab] at h1
            simp only [lexLe, if_neg (Ne.symm hab)] at h2
            have h1p : a < b := of_decide_eq_true h1
            have h2p : b < a := of_decide_eq_true h2
            exact absurd (lt_trans h1p h2p) (lt_irrefl a)
    intro a b h1 h2
    exact String.ext (h a.data b.data h1 h2)

/-- Decimal value of a digit list, as Python `int` computes it for a digit
string. -/
def digitsToNat (l : List Char) : Nat :=
  l.foldl (fun acc c => acc * 10 + (c.toNat - '0'.toNat)) 0

/-- Python `int(s)`: strip surrounding whitespace, accept an optional single
sign followed by a non-empty run of digits; anything else raises
`ValueError`, modelled as `none`. -/
def pyInt (s : String) : Option Int :=
  match pyStripL s.data with
  | [] => none
  | '+' :: rest =>
    if rest ≠ [] ∧ rest.all Char.isDigit then some (digitsToNat rest) else none
  | '-' :: rest =>
    if rest ≠ [] ∧ rest.all Char.isDigit then some (-(digitsToNat rest : Int))
    else none
  | l => if l.all Char.isDigit then some (digitsToNat l) else none

/-- Python `str.isdigit()` restricted to ASCII digits (the inputs the
program feeds it are ASCII). -/
def pyIsDigit (s : String) : Bool := !s.data.isEmpty && s.data.all Char.isDigit

/-- failure_handlers.load_failed_downloads: read the ledger file (modelled
as its list of lines) and return the set of stripped, non-empty lines. -/
def load_failed_downloads (lines : List String) : Finset String :=
  (((lines.map pyStrip).filter (fun l => l ≠ "")).toFinset)

/-- failure_handlers.save_failed_downloads: write one URL per line, in
Python `sorted` order. -/
def save_failed_downloads (s : Finset String) : List String :=
  Finset.sort pyLe s

/-- failure_handlers.add_failed_download: load the full set, add the link,
rewrite the full set. -/
def add_failed_download (link : String) (lines : List String) : List String :=
  save_failed_downloads (insert link (load_failed_downloads lines))

/-- failure_handlers.remove_failed_download: load the full set, discard the
link, rewrite the full set. -/
def remove_failed_download (link : String) (lines : List String) : List String :=
  save_failed_downloads ((load_failed_downloads lines).erase link)

/-- Python `s.split(sep)` for a one-character separator, on the character
list: split at every occurrence, keeping empty pieces. -/
def pySplitChar (sep : Char) : List Char → List (List Char)
  | [] => [[]]
  | c :: rest =>
    let r := pySplitChar sep rest
    if c = sep then [] :: r
    else
      match r with
      | [] => [[c]]
      | h :: t => (c :: h) :: t

/-- Python `s.split(sep)` for a one-character separator. -/
def pySplit (sep : Char) (s : String) : List String :=
  (pySplitChar sep s.data).map String.mk

/-- One element of the list returned by post_extractor.parse_fetch_mode: a
page offset (Python int) or an `id:` marker string. -/
inductive PlanItem where
  | offset (n : Int)
  | idSpec (s : String)
deriving DecidableEq

/-- Python `range(start, stop, step)` for a positive step. -/
def pyRangeStep (start stop step : Int) : List Int :=
  (List.range ((stop - start + step - 1).ediv step).toNat).map
    (fun i => start + step * (i : Int))

/-- Python `math.ceil(a / b)` for a positive divisor `b`. -/
def ceilDivInt (a b : Int) : Int := -((-a).ediv b)

/-- post_extractor.is_offset: `int(value)` must succeed and the literal must
have at most 5 characters. -/
def is_offset (value : String) : Bool :=
  (pyInt value).isSome && value.length ≤ 5

/-- post_extractor.parse_fetch_mode: turn the fetch-mode descriptor and the
total post count into page offsets or an `id:` marker.  `Except.error`
models an uncaught `ValueError` (raised explicitly for an unrecognised
descriptor, or by `int()`/tuple unpacking inside the range branch). -/
def parse_fetch_mode (fetch_mode : String) (total_count : Int) :
    Except String (List PlanItem) :=
  if fetch_mode = "all" then
    .ok ((pyRangeStep 0 total_count 50).map PlanItem.offset)
  else if pyIsDigit fetch_mode then
    if is_offset fetch_mode then
      match pyInt fetch_mode with
      | some n => .ok [PlanItem.offset n]
      | none => .error "ValueError: invalid literal for int"
    else
      .ok [PlanItem.idSpec ("id:" ++ fetch_mode)]
  else if fetch_mode.data.contains '-' then
    match pySplit '-' fetch_mode with
    | [s, e] =>
      match (if s = "start" then some 0 else pyInt s) with
      | none => .error "ValueError: invalid literal for int"
      | some start =>
        match (if e = "end" then some total_count else pyInt e) with
        | none => .error "ValueError: invalid literal for int"
        | some stop =>
          if start ≤ total_count ∧ stop ≤ total_count then
            .ok ((List.range (ceilDivInt (stop - start) 50).toNat).map
              (fun i => PlanItem.offset (start + (i : Int) * 50)))
          else
            .ok [PlanItem.idSpec ("id:" ++ toString start ++ "-" ++ toString stop)]
    | _ => .error "ValueError: unpack"
  else
    .error ("Invalid fetch mode: " ++ fetch_mode)

/-- post_extractor.extract_posts id-range filter: the bounds are sorted as
integers but then compared as decimal STRINGS — the lambda is
`lambda x: id1 <= str(x) <= id2` with `id1, id2 = map(str, sorted(map(int,
id_range.split("-"))))`. -/
def id_range_filter (a b : Int) (x : String) : Bool :=
  pyStrLe (toString (min a b)) x && pyStrLe x (toString (max a b))

/-- The page offsets of a plan (the int entries). -/
def offsetsOnly (items : List PlanItem) : List Int :=
  items.filterMap (fun it =>
    match it with
    | PlanItem.offset n => some n
    | PlanItem.idSpec _ => none)

/-- The sequence of page offsets extract_posts fetches, as a function of the
fetch mode and the profile post count.  `count == 0` returns before any
planning; a `ValueError` from parse_fetch_mode is caught (printed) and the
function returns with no fetch; indexing `offsets[0]` on an empty plan
raises an uncaught IndexError; an `id:` plan rescans every offset. -/
def extract_posts_plan (fetchMode : String) (count : Int) :
    Except String (List Int) :=
  if count = 0 then .ok []
  else
    match parse_fetch_mode fetchMode count with
    | .error _ => .ok []
    | .ok [] => .error "IndexError: list index out of range"
    | .ok (PlanItem.idSpec _ :: _) => .ok (pyRangeStep 0 count 50)
    | .ok items => .ok (offsetsOnly items)

/-- The sequence of page offsets extract_posts_streaming fetches.  Unlike
extract_posts there is no `count == 0` early return, so an empty plan hits
the unguarded `offsets[0]` and raises IndexError before any page fetch. -/
def extract_posts_streaming_plan (fetchMode : String) (count : Int) :
    Except String (List Int) :=
  match parse_fetch_mode fetchMode count with
  | .error _ => .ok []
  | .ok [] => .error "IndexError: list index out of range"
  | .ok (PlanItem.idSpec _ :: _) => .ok (pyRangeStep 0 count 50)
  | .ok items => .ok (offsetsOnly items)

/-- Outcome of the `requests.get` call of one download attempt: HTTP status,
the response content-length header, the number of body bytes streamed, and
an exception raised mid-stream after those bytes (if any). -/
structure GetResp where
  status : Nat
  contentLength : Option Nat
  bodyBytes : Nat
  bodyErr : Option String
deriving DecidableEq

/-- The environment one attempt of download_utils.download_with_resume runs
against: the HEAD size probe result (`none`: probe failed or no
content-length), the GET outcome (`Except.error`: the request itself
raised), the second size probe used when the response has no
content-length, and whether each filesystem call succeeds. -/
structure AttemptEnv where
  headSize : Option Nat
  getResult : Except String GetResp
  headSize2 : Option Nat
  replaceToPartOk : Bool
  removeFinalOk : Bool
  finalizeReplaceOk : Bool
  finalizeCopyErr : Option String

/-- Sizes of the final file and of the `.part` file at one destination
(`none`: the file does not exist). -/
structure FS where
  finalSize : Option Nat
  partSize : Option Nat
deriving DecidableEq

/-- Network and timing events of a download_with_resume run: a HEAD size
probe, a GET (with the byte offset of its Range header, if any), and a
backoff sleep of `backoff_factor * 2 ^ expo` seconds. -/
inductive Ev where
  | head
  | get (range : Option Nat)
  | sleep (expo : Nat)
deriving DecidableEq

/-- How one attempt of the download_with_resume while-loop ends: a direct
return, the 416 discard-and-continue path, or a caught exception that
increments the attempt counter. -/
inductive StepResult where
  | done (ok : Bool) (err : Option String) (fs : FS)
  | retry416 (fs : FS)
  | failRetry (e : String) (fs : FS)
deriving DecidableEq

/-- The Range header byte offset a GET would carry given the current
partial: `bytes=k-` when a non-empty partial of size k exists. -/
def rangeOf (fs : FS) : Option Nat :=
  if fs.partSize.getD 0 > 0 then some (fs.partSize.getD 0) else none

/-- download_utils.download_with_resume, one attempt, from the
`existing_size` read onward (the initial HEAD probe and the final-file size
check are in attemptBody).  Events exclude the initial HEAD. -/
def attemptRest (env : AttemptEnv) (fs1 : FS) : StepResult × List Ev :=
  let existing := fs1.partSize.getD 0
  let range : Option Nat := rangeOf fs1
  match env.getResult with
  | .error e => (.failRetry e fs1, [.get range])
  | .ok resp =>
    if resp.status = 416 then
      -- clear temp, attempt += 1, sleep, continue (sleep emitted by the loop)
      (.retry416 { fs1 with partSize := none }, [.get range])
    else
      -- server ignored the Range header: discard the partial, restart at 0
      let ignored := existing > 0 && resp.status == 200
      let existing2 := if ignored then 0 else existing
      let fs2 := if ignored then { fs1 with partSize := none } else fs1
      if resp.status ≥ 400 then
        (.failRetry ("HTTP " ++ toString resp.status) fs2, [.get range])
      else
        -- a second size probe happens only when the response carries no
        -- content-length (the result only feeds the progress bar)
        let extraHead : List Ev :=
          match resp.contentLength with
          | some _ => []
          | none => [.head]
        -- open the partial ('ab' appends, 'wb' truncates/creates), stream
        let fs3 : FS := { fs2 with partSize := some (existing2 + resp.bodyBytes) }
        match resp.bodyErr with
        | some e => (.failRetry e fs3, [.get range] ++ extraHead)
        | none =>
          if env.finalizeReplaceOk then
            (.done true none { finalSize := fs3.partSize, partSize := none },
             [.get range] ++ extraHead)
          else
            match env.finalizeCopyErr with
            | none =>
              -- fallback copy-then-delete succeeded
              (.done true none { finalSize := fs3.partSize, partSize := none },
               [.get range] ++ extraHead)
            | some ex =>
              -- fallback failed (modelled as failing after the copy wrote the
              -- final bytes, e.g. at os.remove); no retry for this error
              (.done false (some ("Failed to finalize download: " ++ ex))
                { finalSize := fs3.partSize, partSize := fs3.partSize },
               [.get range] ++ extraHead)

/-- One full attempt of the download_with_resume while-loop: HEAD probe; if
the final file exists and matches the probed size, succeed immediately;
if it exists with another size, move it onto the partial (deleting it if
the move fails); then proceed with the ranged GET. -/
def attemptBody (env : AttemptEnv) (fs : FS) : StepResult × List Ev :=
  match fs.finalSize, env.headSize with
  | some fsz, some tsz =>
    if fsz = tsz then (.done true none fs, [.head])
    else
      let fs1 : FS :=
        if env.replaceToPartOk then { finalSize := none, partSize := some fsz }
        else if env.removeFinalOk then { fs with finalSize := none }
        else fs
      let r := attemptRest env fs1
      (r.1, .head :: r.2)
  | _, _ =>
    let r := attemptRest env fs
    (r.1, .head :: r.2)

/-- The while-loop of download_with_resume.  `fuel = maxRetries - attempt`
counts the remaining loop iterations; fuel 0 is the normal loop exit,
which returns `(False, "Unknown error")`.  The 416 path increments the
attempt counter and sleeps `backoff * 2 ^ (attempt + 1)` before
re-checking the loop condition; the exception path increments, returns the
error if the counter reached maxRetries, and otherwise sleeps
`backoff * 2 ^ attempt` before the next attempt. -/
def dwrGo (envs : Nat → AttemptEnv) (maxRetries : Nat) :
    Nat → FS → Nat → (Bool × Option String) × FS × List Ev
  | 0, fs, _ => ((false, some "Unknown error"), fs, [])
  | fuel + 1, fs, attempt =>
    match attemptBody (envs attempt) fs with
    | (.done ok err fs1, evs) => ((ok, err), fs1, evs)
    | (.retry416 fs1, evs) =>
      let rest := dwrGo envs maxRetries fuel fs1 (attempt + 1)
      (rest.1, rest.2.1, evs ++ [.sleep (attempt + 1)] ++ rest.2.2)
    | (.failRetry e fs1, evs) =>
      if attempt + 1 ≥ maxRetries then ((false, some e), fs1, evs)
      else
        let rest := dwrGo envs maxRetries fuel fs1 (attempt + 1)
        (rest.1, rest.2.1, evs ++ [.sleep attempt] ++ rest.2.2)

/-- download_utils.download_with_resume: run up to maxRetries attempts over
the per-attempt environments, returning the Python `(success, error)`
pair, the final filesystem state, and the event trace. -/
def download_with_resume (envs : Nat → AttemptEnv) (maxRetries : Nat)
    (fs : FS) : (Bool × Option String) × FS × List Ev :=
  dwrGo envs maxRetries maxRetries fs 0

/-- Local on-disk state of one candidate file in
batch_file_downloader.process_post: whether the `.part` file exists, and
the final file (`none`: absent; `some none`: present but os.path.getsize
raises OSError; `some (some n)`: present with size n). -/
structure FileState where
  partExists : Bool
  finalState : Option (Option Nat)
deriving DecidableEq

/-- Result of the phase-1 local pre-check of process_post for one file. -/
inductive GateClass where
  | download
  | verify (existingSize : Nat)
  | skip
deriving DecidableEq

/-- Phase 1 of batch_file_downloader.process_post for one file (with
skip_existed_files enabled): a `.part` always downloads; a readable final
file of positive size skips fast (or goes to remote verification under
strict_file_verification); a zero-size final file goes to remote
verification; everything else downloads. -/
def precheck_file (strictVerify : Bool) (st : FileState) : GateClass :=
  if st.partExists then .download
  else
    match st.finalState with
    | none => .download
    | some none => .download
    | some (some sz) =>
      if sz > 0 then (if strictVerify then .verify sz else .skip)
      else .verify sz

/-- The HEAD response seen by batch_file_downloader.verify_file. -/
structure HeadResp where
  status : Nat
  contentLength : Option Nat
deriving DecidableEq

/-- batch_file_downloader.process_post.verify_file: is the local file
complete?  Requires status 200, a positive content-length (absent defaults
to 0) and an exact size match; any exception means "not complete".  (On a
positive mismatch the source also relocates the final file to the partial
path; that side effect is not needed by the counting claims.) -/
def verify_file (existingSize : Nat) (h : Option HeadResp) : Bool :=
  match h with
  | none => false
  | some r =>
    if r.status = 200 then
      let expected := r.contentLength.getD 0
      if expected > 0 && existingSize == expected then true else false
    else false

/-- Whether the gate (phases 1 and 2 of process_post) ends up skipping the
file, given its local state and the HEAD outcome of its verification. -/
def gate_classify (strictVerify : Bool) (st : FileState)
    (h : Option HeadResp) : Bool :=
  match precheck_file strictVerify st with
  | .skip => true
  | .download => false
  | .verify sz => verify_file sz h

/-- One candidate file of a post as process_post sees it: its URL, its local
state, the HEAD outcome its verification would see, and whether its
dispatched download would succeed. -/
structure FileEnv where
  url : String
  st : FileState
  head : Option HeadResp
  dl : Bool
deriving DecidableEq

/-- Is this file skipped by the gate?  With skip_existed_files disabled
every file is downloaded. -/
def file_skipped (cfgSkip strictVerify : Bool) (f : FileEnv) : Bool :=
  cfgSkip && gate_classify strictVerify f.st f.head

/-- The statistics dict returned by batch_file_downloader.process_post. -/
structure PostResult where
  total : Nat
  successful : Nat
  skipped : Nat
  failed : List String
deriving DecidableEq

/-- batch_file_downloader.process_post, counting part: run the gate over
all files, and if nothing is left to download return
`successful = total_files` at once; otherwise dispatch the remaining
files, count their successes, collect their failures, and add the skipped
files to the success count at the end. -/
def process_post (cfgSkip strictVerify : Bool) (files : List FileEnv) :
    PostResult :=
  let toDownload := files.filter (fun f => !file_skipped cfgSkip strictVerify f)
  let skippedCount := files.countP (fun f => file_skipped cfgSkip strictVerify f)
  if toDownload.isEmpty then
    { total := files.length
      successful := files.length
      skipped := skippedCount
      failed := [] }
  else
    { total := files.length
      successful := toDownload.countP (fun f => f.dl) + skippedCount
      skipped := skippedCount
      failed := (toDownload.filter (fun f => !f.dl)).map (fun f => f.url) }

/-- parallel_extract_download.extraction_worker main loop over the stream of
extracted posts, with the put-attempt index as explicit state: each post
bumps the extracted counter once, then gets exactly one
`post_queue.put(post, timeout=10)`; if the put times out (`putOk i` is
false) the worker prints a warning and continues with the NEXT post.
Returns (enqueued posts, extracted counter, warning count). -/
def extractionGo (putOk : Nat → Bool) : List α → Nat → List α × Nat × Nat
  | [], _ => ([], 0, 0)
  | p :: rest, i =>
    let r := extractionGo putOk rest (i + 1)
    if putOk i then (p :: r.1, r.2.1 + 1, r.2.2)
    else (r.1, r.2.1 + 1, r.2.2 + 1)

/-- parallel_extract_download.extraction_worker, started at the first put
attempt. -/
def extraction_worker (posts : List α) (putOk : Nat → Bool) :
    List α × Nat × Nat :=
  extractionGo putOk posts 0

/-- A queue oracle whose first put attempt times out and whose later
attempts succeed. -/
def failFirstPut : Nat → Bool := fun i => 0 < i

/-- Attempt environment in which every GET answers 416 (range not
satisfiable) and the HEAD probe fails. -/
def envC2 : Nat → AttemptEnv := fun _ =>
  { headSize := none
    getResult := .ok { status := 416, contentLength := none, bodyBytes := 0, bodyErr := none }
    headSize2 := none
    replaceToPartOk := true
    removeFinalOk := true
    finalizeReplaceOk := true
    finalizeCopyErr := none }

/-- The 416 response served by envC2. -/
def resp416 : GetResp :=
  { status := 416, contentLength := none, bodyBytes := 0, bodyErr := none }

/-- Attempt environment whose HEAD probe reports remote size 0. -/
def envHeadZero : Nat → AttemptEnv := fun _ =>
  { headSize := some 0
    getResult := .error "unused"
    headSize2 := none
    replaceToPartOk := true
    removeFinalOk := true
    finalizeReplaceOk := true
    finalizeCopyErr := none }

/-- Attempt environment in which every GET raises a connection error and
the HEAD probe fails. -/
def envFail : Nat → AttemptEnv := fun _ =>
  { headSize := none
    getResult := .error "connection reset"
    headSize2 := none
    replaceToPartOk := true
    removeFinalOk := true
    finalizeReplaceOk := true
    finalizeCopyErr := none }

/-- The per-attempt error raised by envFail. -/
def errsConn : Nat → String := fun _ => "connection reset"

/-- Two candidate files that the gate fast-skips (existing final files of
positive size, strict verification off). -/
def filesAllSkip : List FileEnv :=
  [{ url := "u1", st := { partExists := false, finalState := some (some 3) },
     head := none, dl := false },
   { url := "u2", st := { partExists := false, finalState := some (some 8) },
     head := none, dl := false }]

/-!  Theorems.  Helper lemmas come first, then one theorem per claim (with
its witness or counterexample where required). -/

theorem dropWhile_dropWhile (p : α → Bool) (l : List α) :
    (l.dropWhile p).dropWhile p = l.dropWhile p := by
  induction l with
  | nil => rfl
  | cons a l ih =>
    by_cases h : p a
    · rw [List.dropWhile_cons_of_pos h]; exact ih
    · rw [List.dropWhile_cons_of_neg h, List.dropWhile_cons_of_neg h]

theorem head?_dropWhile_false (p : α → Bool) (l : List α) (a : α)
    (h : (l.dropWhile p).head? = some a) : p a = false := by
  induction l with
  | nil => simp at h
  | cons b l ih =>
    by_cases hb : p b
    · rw [List.dropWhile_cons_of_pos hb] at h
      exact ih h
    · rw [List.dropWhile_cons_of_neg hb] at h
      simp only [List.head?_cons, Option.some.injEq] at h
      rw [← h]
      simpa using hb

theorem getLast?_dropWhile_ne_nil (p : α → Bool) (l : List α)
    (h : l.dropWhile p ≠ []) : (l.dropWhile p).getLast? = l.getLast? := by
  induction l with
  | nil => simp at h
  | cons a l ih =>
    by_cases hp : p a
    · rw [List.dropWhile_cons_of_pos hp] at h ⊢
      rw [ih h]
      cases l with
      | nil => simp at h
      | cons b t => rw [List.getLast?_cons_cons]
    · rw [List.dropWhile_cons_of_neg hp]

theorem pyStripL_idem (l : List Char) : pyStripL (pyStripL l) = pyStripL l := by
  by_cases hq : (l.dropWhile pyIsSpace).reverse.dropWhile pyIsSpace = []
  · have h1 : pyStripL l = [] := by unfold pyStripL; rw [hq]; rfl
    rw [h1]; rfl
  · have hstrip : pyStripL l = ((l.dropWhile pyIsSpace).reverse.dropWhile pyIsSpace).reverse := rfl
    generalize hm : l.dropWhile pyIsSpace = m at hq hstrip
    generalize hqg : m.reverse.dropWhile pyIsSpace = q at hq hstrip
    have hqq : q.dropWhile pyIsSpace = q := by
      rw [← hqg]; exact dropWhile_dropWhile _ _
    have h2 : q.getLast? = m.reverse.getLast? := by
      have := getLast?_dropWhile_ne_nil pyIsSpace m.reverse (by rw [hqg]; exact hq)
      rw [hqg] at this
      exact this
    have h3 : m.reverse.getLast? = m.head? := List.getLast?_reverse m
    cases hmc : m with
    | nil =>
      rw [hmc] at hqg
      simp at hqg
      exact absurd hqg hq
    | cons a t =>
      have ha : pyIsSpace a = false := by
        apply head?_dropWhile_false pyIsSpace l a
        rw [hm, hmc]; rfl
      have hhead : q.reverse.head? = some a := by
        rw [List.head?_reverse q, h2, h3, hmc]; rfl
      have h4 : q.reverse.dropWhile pyIsSpace = q.reverse := by
        cases hqr : q.reverse with
        | nil => rfl
        | cons b s =>
          rw [hqr] at hhead
          simp only [List.head?_cons, Option.some.injEq] at hhead
          rw [List.dropWhile_cons_of_neg]
          rw [hhead]
          simp [ha]
      rw [hstrip]
      show pyStripL q.reverse = q.reverse
      unfold pyStripL
      rw [h4, List.reverse_reverse, hqq]

theorem pyStrip_idem (s : String) : pyStrip (pyStrip s) = pyStrip s :=
  congrArg String.mk (pyStripL_idem s.data)

theorem mem_load_strip_fixed (lines : List String) (x : String)
    (hx : x ∈ load_failed_downloads lines) : pyStrip x = x ∧ x ≠ "" := by
  unfold load_failed_downloads at hx
  rw [List.mem_toFinset] at hx
  have hne := List.of_mem_filter hx
  have hmap := List.mem_of_mem_filter hx
  obtain ⟨t, _, rfl⟩ := List.mem_map.mp hmap
  exact ⟨pyStrip_idem t, of_decide_eq_true hne⟩

theorem load_save_clean (S : Finset String)
    (h : ∀ x ∈ S, pyStrip x = x ∧ x ≠ "") :
    load_failed_downloads (save_failed_downloads S) = S := by
  unfold load_failed_downloads save_failed_downloads
  have hmem : ∀ a ∈ Finset.sort pyLe S, a ∈ S := by
    intro a ha
    exact (Finset.mem_sort pyLe).mp ha
  have hmap : (Finset.sort pyLe S).map pyStrip = Finset.sort pyLe S := by
    have := List.map_congr_left (l := Finset.sort pyLe S)
      (f := pyStrip) (g := id) (fun a ha => (h a (hmem a ha)).1)
    rw [this, List.map_id]
  rw [hmap]
  have hfil : (Finset.sort pyLe S).filter (fun l => l ≠ "") = Finset.sort pyLe S := by
    apply List.filter_eq_self.mpr
    intro a ha
    exact decide_eq_true (h a (hmem a ha)).2
  rw [hfil, Finset.sort_toFinset]

/-- C8.  The failure ledger is idempotent on the persisted set: adding a URL
twice writes the same ledger file as adding it once, and removing an
absent URL twice leaves the persisted set exactly as it was. -/
theorem c8_ledger_idempotent : ∀ (x : String) (lines : List String),
    (pyStrip x = x ∧ x ≠ "" →
      add_failed_download x (add_failed_download x lines) =
        add_failed_download x lines) ∧
    (x ∉ load_failed_downloads lines →
      load_failed_downloads
          (remove_failed_download x (remove_failed_download x lines)) =
        load_failed_downloads lines) := by
  intro x lines
  constructor
  · rintro ⟨hx1, hx2⟩
    unfold add_failed_download
    have hclean : ∀ y ∈ insert x (load_failed_downloads lines),
        pyStrip y = y ∧ y ≠ "" := by
      intro y hy
      rcases Finset.mem_insert.mp hy with hy1 | hy2
      · rw [hy1]; exact ⟨hx1, hx2⟩
      · exact mem_load_strip_fixed lines y hy2
    rw [load_save_clean _ hclean, Finset.insert_idem]
  · intro hx
    unfold remove_failed_download
    have hclean : ∀ y ∈ load_failed_downloads lines, pyStrip y = y ∧ y ≠ "" :=
      fun y hy => mem_load_strip_fixed lines y hy
    rw [Finset.erase_eq_of_not_mem hx, load_save_clean _ hclean,
      Finset.erase_eq_of_not_mem hx, load_save_clean _ hclean]

/-- C8 witness at concrete inputs. -/
theorem c8_ledger_idempotent_witness :
    add_failed_download "http://x" (add_failed_download "http://x" ["http://a"]) =
      add_failed_download "http://x" ["http://a"] ∧
    load_failed_downloads (remove_failed_download "http://z"
        (remove_failed_download "http://z" ["http://a"])) =
      load_failed_downloads ["http://a"] :=
  ⟨(c8_ledger_idempotent "http://x" ["http://a"]).1 (by decide),
   (c8_ledger_idempotent "http://z" ["http://a"]).2 (by decide)⟩

theorem dropWhile_eq_self_of_all_false (p : α → Bool) (l : List α)
    (h : ∀ c ∈ l, p c = false) : l.dropWhile p = l := by
  cases l with
  | nil => rfl
  | cons a t =>
    exact List.dropWhile_cons_of_neg (by simp [h a (List.mem_cons_self a t)])

theorem pyStrip_eq_self_of_no_space (x : String)
    (h : ∀ c ∈ x.data, pyIsSpace c = false) : pyStrip x = x := by
  have h1 : x.data.dropWhile pyIsSpace = x.data :=
    dropWhile_eq_self_of_all_false _ _ h
  have h2 : x.data.reverse.dropWhile pyIsSpace = x.data.reverse :=
    dropWhile_eq_self_of_all_false _ _ (fun c hc => h c (List.mem_reverse.mp hc))
  show String.mk (pyStripL x.data) = x
  unfold pyStripL
  rw [h1, h2, List.reverse_reverse]

/-- C10.  For a finite set of non-empty whitespace-free URLs, loading the
ledger file written by save_failed_downloads returns exactly that set, and
the file holds each URL once, on its own line, in sorted order. -/
theorem c10_ledger_roundtrip : ∀ (S : Finset String),
    (∀ x ∈ S, x ≠ "" ∧ ∀ c ∈ x.data, pyIsSpace c = false) →
    load_failed_downloads (save_failed_downloads S) = S ∧
    List.Sorted pyLe (save_failed_downloads S) ∧
    (save_failed_downloads S).toFinset = S ∧
    (save_failed_downloads S).Nodup := by
  intro S h
  refine ⟨?_, Finset.sort_sorted pyLe S, Finset.sort_toFinset pyLe S,
    Finset.sort_nodup pyLe S⟩
  apply load_save_clean
  intro x hx
  exact ⟨pyStrip_eq_self_of_no_space x (h x hx).2, (h x hx).1⟩

/-- C10 witness at a concrete two-element set. -/
theorem c10_ledger_roundtrip_witness :
    load_failed_downloads (save_failed_downloads {"http://b", "http://a"}) =
      {"http://b", "http://a"} ∧
    List.Sorted pyLe (save_failed_downloads {"http://b", "http://a"}) ∧
    (save_failed_downloads {"http://b", "http://a"}).toFinset =
      {"http://b", "http://a"} ∧
    (save_failed_downloads {"http://b", "http://a"}).Nodup :=
  c10_ledger_roundtrip {"http://b", "http://a"} (by decide)

/-- C4.  The id-range mode is NOT a numeric comparison: the bounds are
sorted as integers but the filter compares decimal strings
lexicographically, so for the range 5-100 the id 50 is rejected although
5 ≤ 50 ≤ 100 — and even the boundary ids 5 and 100 themselves are
rejected.  (parse_fetch_mode turns "5-100" with a small total into the id
marker this filter is built from.) -/
theorem c4_id_filter_string_compare :
    parse_fetch_mode "5-100" 3 = Except.ok [PlanItem.idSpec "id:5-100"] ∧
    id_range_filter 5 100 "50" = false ∧
    id_range_filter 5 100 "5" = false ∧
    id_range_filter 5 100 "100" = false ∧
    ((5 : Int) ≤ 50 ∧ (50 : Int) ≤ 100) ∧
    id_range_filter 12 34 "20" = true :=
  ⟨rfl, rfl, rfl, rfl, by decide, rfl⟩

/-- C5 counterexample.  A record whose single queue put times out is
dropped: with the first put timing out, record "r0" is extracted (counter
2) but never reaches the queue — only "r1" is enqueued, with one warning —
refuting that the producer keeps retrying until the record is enqueued. -/
theorem c5_drop_counterexample :
    (extraction_worker ["r0", "r1"] failFirstPut).1 = ["r1"] ∧
    "r0" ∉ (extraction_worker ["r0", "r1"] failFirstPut).1 ∧
    (extraction_worker ["r0", "r1"] failFirstPut).2 = (2, 1) := by
  exact ⟨rfl, by decide, rfl⟩

theorem extractionGo_eq (putOk : Nat → Bool) :
    ∀ (posts : List α) (i : Nat),
      extractionGo putOk posts i =
        ((List.enumFrom i posts).filterMap
            (fun q => if putOk q.1 then some q.2 else none),
         posts.length,
         (List.enumFrom i posts).countP (fun q => !putOk q.1)) := by
  intro posts
  induction posts with
  | nil => intro i; rfl
  | cons p rest ih =>
    intro i
    show (let r := extractionGo putOk rest (i + 1);
      if putOk i then (p :: r.1, r.2.1 + 1, r.2.2)
      else (r.1, r.2.1 + 1, r.2.2 + 1)) = _
    rw [ih (i + 1)]
    by_cases h : putOk i = true
    · simp [List.enumFrom, List.countP_cons, h]
    · simp only [Bool.not_eq_true] at h
      simp [List.enumFrom, List.countP_cons, h]

/-- C5 (amended).  Each extracted record gets exactly one bounded-wait push:
the extracted counter counts every record, a record whose push succeeds is
enqueued in order, and a record whose push times out is dropped after a
single warning — the producer moves on to the next record instead of
retrying. -/
theorem c5_put_timeout_drops : ∀ (posts : List String) (putOk : Nat → Bool),
    extraction_worker posts putOk =
      ((posts.enum.filterMap (fun q => if putOk q.1 then some q.2 else none)),
       posts.length,
       posts.enum.countP (fun q => !putOk q.1)) := by
  intro posts putOk
  exact extractionGo_eq putOk posts 0

/-- C6 counterexample.  With fetch mode "0" and total count 0 the plan is
`[0]`, not empty, and the streaming extraction does fetch the page at
offset 0 — refuting "for total == 0 the plan is empty and no page fetch is
attempted". -/
theorem c6_total_zero_counterexample :
    parse_fetch_mode "0" 0 = Except.ok [PlanItem.offset 0] ∧
    extract_posts_streaming_plan "0" 0 = Except.ok [0] :=
  ⟨rfl, rfl⟩

/-- C6 (amended).  plan("all",120) = [0,50,100] and plan("0",10) = [0]; for
total = 0: the "all" plan is empty, extract_posts fetches no page for ANY
fetch mode (its count == 0 early return), and extract_posts_streaming
fetches no page in "all" mode — though only because the empty plan hits
the unguarded offsets[0] and dies with IndexError — while in the explicit
page mode "0" its plan is [0] and a page fetch IS attempted. -/
theorem c6_offset_planner :
    parse_fetch_mode "all" 120 =
      Except.ok [PlanItem.offset 0, PlanItem.offset 50, PlanItem.offset 100] ∧
    parse_fetch_mode "0" 10 = Except.ok [PlanItem.offset 0] ∧
    parse_fetch_mode "all" 0 = Except.ok [] ∧
    (∀ fm, extract_posts_plan fm 0 = Except.ok []) ∧
    extract_posts_streaming_plan "all" 0 =
      Except.error "IndexError: list index out of range" ∧
    extract_posts_streaming_plan "0" 0 = Except.ok [0] := by
  refine ⟨rfl, rfl, rfl, ?_, rfl, rfl⟩
  intro fm
  simp [extract_posts_plan]

/-- C7 counterexample.  A zero-size final file with no partial is NOT
classified as a direct download: the phase-1 pre-check routes it to the
remote-verification pool (a HEAD request), both with and without strict
verification. -/
theorem c7_zero_size_counterexample :
    precheck_file false { partExists := false, finalState := some (some 0) } =
      GateClass.verify 0 ∧
    precheck_file false { partExists := false, finalState := some (some 0) } ≠
      GateClass.download ∧
    precheck_file true { partExists := false, finalState := some (some 0) } =
      GateClass.verify 0 := by
  exact ⟨rfl, by decide, rfl⟩

/-- C7 (amended).  A zero-size final file with no partial is routed to the
remote verification pool — a HEAD request is issued for it — and the
verification can never report it complete (completeness needs a positive
expected size equal to the local size), so the file always ends in the
download set. -/
theorem c7_zero_size_goes_to_verify : ∀ (strictVerify : Bool) (st : FileState),
    st.partExists = false → st.finalState = some (some 0) →
    precheck_file strictVerify st = GateClass.verify 0 ∧
    (∀ h, verify_file 0 h = false) := by
  intro strictVerify st h1 h2
  constructor
  · unfold precheck_file
    rw [h1, h2]
    rfl
  · intro h
    cases h with
    | none => rfl
    | some r =>
      by_cases hs : r.status = 200
      · cases hcl : r.contentLength with
        | none => simp [verify_file, hs, hcl]
        | some v =>
          cases v with
          | zero => simp [verify_file, hs, hcl]
          | succ k => simp [verify_file, hs, hcl]
      · simp [verify_file, hs]

/-- C7 witness at concrete inputs. -/
theorem c7_zero_size_goes_to_verify_witness :
    precheck_file true { partExists := false, finalState := some (some 0) } =
      GateClass.verify 0 ∧
    verify_file 0 (some { status := 200, contentLength := some 0 }) = false ∧
    verify_file 0 (some { status := 200, contentLength := some 44 }) = false ∧
    verify_file 0 none = false :=
  ⟨(c7_zero_size_goes_to_verify true
      { partExists := false, finalState := some (some 0) } rfl rfl).1,
   (c7_zero_size_goes_to_verify true
      { partExists := false, finalState := some (some 0) } rfl rfl).2
     (some { status := 200, contentLength := some 0 }),
   (c7_zero_size_goes_to_verify true
      { partExists := false, finalState := some (some 0) } rfl rfl).2
     (some { status := 200, contentLength := some 44 }),
   (c7_zero_size_goes_to_verify true
      { partExists := false, finalState := some (some 0) } rfl rfl).2 none⟩

/-- C9.  process_post reports successful = skipped + (dispatched downloads
that succeeded); in particular, when the gate skips every file it reports
successful = total_files with an empty failed list. -/
theorem c9_success_counts : ∀ (cfgSkip strictVerify : Bool)
    (files : List FileEnv),
    (process_post cfgSkip strictVerify files).successful =
      (process_post cfgSkip strictVerify files).skipped +
        (files.filter (fun f => !file_skipped cfgSkip strictVerify f)).countP
          (fun f => f.dl) ∧
    ((∀ f ∈ files, file_skipped cfgSkip strictVerify f = true) →
      (process_post cfgSkip strictVerify files).successful = files.length ∧
      (process_post cfgSkip strictVerify files).failed = []) := by
  intro cfgSkip strictVerify files
  by_cases h : (files.filter (fun f => !file_skipped cfgSkip strictVerify f)).isEmpty
  · have hnil : files.filter (fun f => !file_skipped cfgSkip strictVerify f) = [] := by
      rwa [List.isEmpty_iff] at h
    have hall : ∀ f ∈ files, file_skipped cfgSkip strictVerify f = true := by
      intro f hf
      have := List.filter_eq_nil_iff.mp hnil f hf
      simpa using this
    have hcnt : files.countP (fun f => file_skipped cfgSkip strictVerify f) =
        files.length := List.countP_eq_length.mpr hall
    constructor
    · simp [process_post, h, hnil, hcnt]
    · intro _
      simp [process_post, h]
  · constructor
    · simp [process_post, h, Nat.add_comm]
    · intro hall
      exfalso
      apply h
      rw [List.isEmpty_iff]
      apply List.filter_eq_nil_iff.mpr
      intro f hf
      simp [hall f hf]

/-- C9 witness: a post whose two files are both fast-skipped by the gate. -/
theorem c9_success_counts_witness :
    (process_post true false filesAllSkip).successful = filesAllSkip.length ∧
    (process_post true false filesAllSkip).failed = [] :=
  (c9_success_counts true false filesAllSkip).2 (by decide)

/-- C1 counterexample.  With local size 0 equal to the probed remote size 0,
the transfer does return success immediately, but the verification gate
does NOT classify the file as Skip: the zero-size file is routed to
verification and then to download, strict or not. -/
theorem c1_zero_size_counterexample :
    download_with_resume envHeadZero 3 { finalSize := some 0, partSize := none } =
      ((true, none), { finalSize := some 0, partSize := none }, [Ev.head]) ∧
    gate_classify true { partExists := false, finalState := some (some 0) }
      (some { status := 200, contentLength := some 0 }) = false ∧
    gate_classify false { partExists := false, finalState := some (some 0) }
      (some { status := 200, contentLength := some 0 }) = false :=
  ⟨rfl, rfl, rfl⟩

/-- C1 (amended).  If the final file exists and its size equals the
HEAD-probed remote size, download_with_resume returns success on the first
attempt with no GET, no sleep and no filesystem change; the gate
classifies such a file as Skip whenever the shared size is positive (both
with strict verification, whose HEAD confirms the match, and without,
where it fast-skips with no HEAD at all); a zero-size file equal to a
zero remote size is the exception — the transfer still succeeds
immediately but the gate sends it to verification and re-downloads it. -/
theorem c1_equal_size_skips :
    (∀ (envs : Nat → AttemptEnv) (maxRetries : Nat) (fs : FS) (t : Nat),
      0 < maxRetries → fs.finalSize = some t → (envs 0).headSize = some t →
      download_with_resume envs maxRetries fs = ((true, none), fs, [Ev.head])) ∧
    (∀ (strictVerify : Bool) (sz : Nat), 0 < sz →
      gate_classify strictVerify
        { partExists := false, finalState := some (some sz) }
        (some { status := 200, contentLength := some sz }) = true) ∧
    gate_classify true { partExists := false, finalState := some (some 0) }
      (some { status := 200, contentLength := some 0 }) = false := by
  refine ⟨?_, ?_, rfl⟩
  · intro envs maxRetries fs t hmr hfs hhead
    cases maxRetries with
    | zero => exact absurd hmr (by omega)
    | succ n =>
      show dwrGo envs (n + 1) (n + 1) fs 0 = ((true, none), fs, [Ev.head])
      have hb : attemptBody (envs 0) fs = (.done true none fs, [Ev.head]) := by
        unfold attemptBody
        rw [hfs, hhead]
        simp
      rw [dwrGo, hb]
  · intro strictVerify sz hsz
    cases strictVerify with
    | false =>
      unfold gate_classify precheck_file
      simp [hsz]
    | true =>
      unfold gate_classify precheck_file verify_file
      simp [hsz]

/-- C1 witness: a 7-byte final file matching a 7-byte remote, and the same
for the immediate-success path of the transfer at size 0. -/
theorem c1_equal_size_skips_witness :
    download_with_resume envHeadZero 3 { finalSize := some 0, partSize := none } =
      ((true, none), { finalSize := some 0, partSize := none }, [Ev.head]) ∧
    gate_classify true { partExists := false, finalState := some (some 7) }
      (some { status := 200, contentLength := some 7 }) = true :=
  ⟨c1_equal_size_skips.1 envHeadZero 3
      { finalSize := some 0, partSize := none } 0 (by decide) rfl rfl,
   c1_equal_size_skips.2.1 true 7 (by decide)⟩

/-- C2 counterexample.  With maxRetries = 2, a 5-byte partial and a server
that always answers 416, the engine sleeps backoff * 2^1 and
backoff * 2^2 (events sleep 1 and sleep 2 in the trace) and burns both
attempts on the two 416 responses, finally returning
(False, "Unknown error") — refuting "no backoff sleep and no attempt
consumed". -/
theorem c2_backoff_counterexample :
    download_with_resume envC2 2 { finalSize := none, partSize := some 5 } =
      ((false, some "Unknown error"), { finalSize := none, partSize := none },
       [Ev.head, Ev.get (some 5), Ev.sleep 1, Ev.head, Ev.get none, Ev.sleep 2]) ∧
    Ev.sleep 1 ∈
      (download_with_resume envC2 2
        { finalSize := none, partSize := some 5 }).2.2 :=
  ⟨rfl, by decide⟩

/-- C2 (amended).  When a ranged GET answers 416 (and the HEAD probe gave no
size), the engine discards the partial and retries from zero, but the
retry consumes one of the maxRetries attempts and is preceded by a
backoff sleep of backoff * 2^(attempt+1); attempts exhausted this way end
with (False, "Unknown error"). -/
theorem c2_retry416_consumes_attempt : ∀ (envs : Nat → AttemptEnv)
    (maxRetries fuel attempt : Nat) (fs : FS) (resp : GetResp),
    (envs attempt).headSize = none →
    (envs attempt).getResult = Except.ok resp →
    resp.status = 416 →
    dwrGo envs maxRetries (fuel + 1) fs attempt =
      ((dwrGo envs maxRetries fuel { fs with partSize := none } (attempt + 1)).1,
       (dwrGo envs maxRetries fuel { fs with partSize := none } (attempt + 1)).2.1,
       [Ev.head, Ev.get (rangeOf fs), Ev.sleep (attempt + 1)] ++
         (dwrGo envs maxRetries fuel { fs with partSize := none }
           (attempt + 1)).2.2) := by
  intro envs maxRetries fuel attempt fs resp hhead hget h416
  have hrest : attemptRest (envs attempt) fs =
      (.retry416 { fs with partSize := none }, [Ev.get (rangeOf fs)]) := by
    unfold attemptRest
    rw [hget]
    simp [h416]
  have hb : attemptBody (envs attempt) fs =
      (.retry416 { fs with partSize := none }, [Ev.head, Ev.get (rangeOf fs)]) := by
    unfold attemptBody
    cases hfs : fs.finalSize with
    | none => rw [hhead, hrest, hfs]
    | some fsz => rw [hhead, hrest, hfs]
  rw [dwrGo, hb]
  exact rfl

/-- C2 witness: the first 416 of the envC2 run, concretely. -/
theorem c2_retry416_consumes_attempt_witness :
    dwrGo envC2 2 2 { finalSize := none, partSize := some 5 } 0 =
      ((dwrGo envC2 2 1 { finalSize := none, partSize := none } 1).1,
       (dwrGo envC2 2 1 { finalSize := none, partSize := none } 1).2.1,
       [Ev.head, Ev.get (some 5), Ev.sleep 1] ++
         (dwrGo envC2 2 1 { finalSize := none, partSize := none } 1).2.2) :=
  c2_retry416_consumes_attempt envC2 2 1 0
    { finalSize := none, partSize := some 5 } resp416 rfl rfl rfl

theorem dwr_all_fail_go (envs : Nat → AttemptEnv) (errs : Nat → String)
    (maxRetries : Nat)
    (h : ∀ i g, i < maxRetries → ∃ fs2 evs,
      attemptBody (envs i) g = (StepResult.failRetry (errs i) fs2, evs) ∧
      (g.partSize.isSome → fs2.partSize.isSome)) :
    ∀ (fuel attempt : Nat) (fs : FS),
      attempt + fuel = maxRetries → 0 < fuel →
      (dwrGo envs maxRetries fuel fs attempt).1 =
        (false, some (errs (maxRetries - 1))) ∧
      (fs.partSize.isSome →
        (dwrGo envs maxRetries fuel fs attempt).2.1.partSize.isSome) := by
  intro fuel
  induction fuel with
  | zero =>
    intro attempt fs hsum hpos
    exact absurd hpos (by omega)
  | succ f ih =>
    intro attempt fs hsum _
    have hlt : attempt < maxRetries := by omega
    obtain ⟨fs2, evs, hb, hpart⟩ := h attempt fs hlt
    by_cases hend : attempt + 1 ≥ maxRetries
    · have hatt : attempt = maxRetries - 1 := by omega
      have hcond : maxRetries ≤ maxRetries - 1 + 1 := by omega
      constructor
      · rw [dwrGo, hb]
        simp [hatt, hcond]
      · intro hp
        rw [dwrGo, hb]
        simpa [hatt, hcond] using hpart hp
    · have hsum2 : (attempt + 1) + f = maxRetries := by omega
      have hrec := ih (attempt + 1) fs2 hsum2 (by omega)
      constructor
      · rw [dwrGo, hb]
        simpa [hend] using hrec.1
      · intro hp
        rw [dwrGo, hb]
        simpa [hend] using hrec.2 (hpart hp)

/-- C3.  If every one of the maxRetries attempts fails with a raised error
(the attempt body takes the exception path), download_with_resume returns
(False, error-of-the-last-attempt), and a partial file present on disk is
still present afterwards — the failing attempts never delete it. -/
theorem c3_retries_exhausted : ∀ (envs : Nat → AttemptEnv)
    (errs : Nat → String) (maxRetries : Nat) (fs : FS),
    0 < maxRetries →
    (∀ i g, i < maxRetries → ∃ fs2 evs,
      attemptBody (envs i) g = (StepResult.failRetry (errs i) fs2, evs) ∧
      (g.partSize.isSome → fs2.partSize.isSome)) →
    (download_with_resume envs maxRetries fs).1 =
      (false, some (errs (maxRetries - 1))) ∧
    (fs.partSize.isSome →
      (download_with_resume envs maxRetries fs).2.1.partSize.isSome) :=
  fun envs errs maxRetries fs hmr h =>
    dwr_all_fail_go envs errs maxRetries h maxRetries 0 fs (by omega) hmr

/-- C3 witness: three attempts that all raise a connection error around a
7-byte partial. -/
theorem c3_retries_exhausted_witness :
    (download_with_resume envFail 3
        { finalSize := none, partSize := some 7 }).1 =
      (false, some "connection reset") ∧
    ((FS.mk none (some 7)).partSize.isSome →
      (download_with_resume envFail 3
        { finalSize := none, partSize := some 7 }).2.1.partSize.isSome) :=
  c3_retries_exhausted envFail errsConn 3 { finalSize := none, partSize := some 7 }
    (by decide)
    (by
      intro i g _
      refine ⟨g, [Ev.head, Ev.get (rangeOf g)], ?_, fun hp => hp⟩
      have hrest : attemptRest (envFail i) g =
          (StepResult.failRetry "connection reset" g, [Ev.get (rangeOf g)]) := rfl
      unfold attemptBody
      cases hfs : g.finalSize with
      | none => rw [hrest]; exact rfl
      | some fsz => rw [hrest]; exact rfl)
